import Mathlib

/-!
# Verification of the iris-mlops drift-monitoring core

Shallow embedding of the drift-monitoring code of the repository
(`monitoring/record_preprocessor.py`, the Lambda body embedded in
`monitoring/deploy_monitoring.py` / `monitoring/drift_lambda.py`, and
`monitoring/baseline_build.py`), together with the parts of the
specification (PSI scoring, baseline bin frequencies) that have no
implementation in the sources and are therefore modelled from the
specification text.

Python floats are embedded as rationals (`ℚ`); the real-valued parts of
the mathematical claims (PSI, standard deviation) use `ℝ`.
-/

namespace IrisMon

/-! ## Basic Python string helpers -/

/-- The whitespace characters recognised by Python's `str.strip` /
`\s` in regular expressions (ASCII subset). -/
def isPySpace (c : Char) : Bool :=
  c = ' ' || c = '\t' || c = '\n' || c = '\r' || c = '\x0b' || c = '\x0c'

/-- Strip leading and trailing whitespace from a character list
(Python `str.strip()`). -/
def stripChars (cs : List Char) : List Char :=
  ((cs.dropWhile isPySpace).reverse.dropWhile isPySpace).reverse

/-- Python `str.strip()` on strings. -/
def pyStrip (s : String) : String :=
  ⟨stripChars s.data⟩

/-- Python `str.lower()` (ASCII). -/
def pyLower (s : String) : String :=
  s.map Char.toLower

/-- Python `str.upper()` (ASCII). -/
def pyUpper (s : String) : String :=
  s.map Char.toUpper

/-- Auxiliary for `splitLinesChars`: accumulate the current line
(reversed) and split at `\r\n`, `\n` or `\r`, following Python
`str.splitlines()` (the rare vertical-tab/form-feed/unicode breaks are
not exercised by these sources' payloads). -/
def splitLinesAux (cur : List Char) : List Char → List (List Char)
  | [] => if cur = [] then [] else [cur.reverse]
  | '\r' :: '\n' :: r => cur.reverse :: splitLinesAux [] r
  | '\n' :: r => cur.reverse :: splitLinesAux [] r
  | '\r' :: r => cur.reverse :: splitLinesAux [] r
  | c :: r => splitLinesAux (c :: cur) r

/-- Python `str.splitlines()` on character lists. -/
def splitLinesChars (cs : List Char) : List (List Char) :=
  splitLinesAux [] cs

/-- Auxiliary for token splitting: maximal runs of characters that are
neither commas nor whitespace.  This is `re.split(r"[,\s]+", s)`
followed by dropping empty results, as done in `_parse_csv`. -/
def splitTokensAux (cur : List Char) : List Char → List (List Char)
  | [] => if cur = [] then [] else [cur.reverse]
  | c :: r =>
    if c = ',' || isPySpace c then
      if cur = [] then splitTokensAux [] r else cur.reverse :: splitTokensAux [] r
    else
      splitTokensAux (c :: cur) r

/-- Split a character list on runs of commas/whitespace, discarding
empty tokens. -/
def splitTokens (cs : List Char) : List (List Char) :=
  splitTokensAux [] cs

/-- `startsWithL n h` : `n` is an initial segment of `h`. -/
def startsWithL : List Char → List Char → Bool
  | [], _ => true
  | _ :: _, [] => false
  | a :: as, b :: bs => a = b && startsWithL as bs

/-- Substring containment on character lists (Python `needle in hay`). -/
def hasSubstrL (n : List Char) : List Char → Bool
  | [] => startsWithL n []
  | c :: t => startsWithL n (c :: t) || hasSubstrL n t

/-- Substring containment on strings (Python `needle in hay`). -/
def hasSubstr (n h : String) : Bool :=
  hasSubstrL n.data h.data

/-! ## Decimal number parsing (Python `float(str)` on numeric literals) -/

/-- Decimal digits to a natural number. -/
def digitsToNat (ds : List Char) : ℕ :=
  ds.foldl (fun n c => n * 10 + (c.toNat - 48)) 0

/-- Parse a decimal literal `[+-]? digits* [. digits*] [eE [+-]? digits+]`
(at least one digit before or after the point), returning the value and
the unconsumed rest.  This is the common numeric-literal fragment of
Python `float()` and of JSON numbers; the exotic Python forms
(`inf`, `nan`, underscores) are not exercised by these sources. -/
def parseDecimal (cs : List Char) : Option (ℚ × List Char) :=
  let sp : ℚ × List Char :=
    match cs with
    | '+' :: r => (1, r)
    | '-' :: r => (-1, r)
    | _ => (1, cs)
  let sgn := sp.1
  let cs1 := sp.2
  let ip := cs1.takeWhile Char.isDigit
  let cs2 := cs1.dropWhile Char.isDigit
  let fpp : Option (List Char) × List Char :=
    match cs2 with
    | '.' :: r => (some (r.takeWhile Char.isDigit), r.dropWhile Char.isDigit)
    | _ => (none, cs2)
  let fp := fpp.1
  let cs3 := fpp.2
  if ip = [] && (fp = none || fp = some []) then none
  else
    let frac : ℚ :=
      match fp with
      | some d => (digitsToNat d : ℚ) / ((10 : ℚ) ^ d.length)
      | none => 0
    let base : ℚ := (digitsToNat ip : ℚ) + frac
    match cs3 with
    | 'e' :: r =>
      let esp : ℤ × List Char :=
        match r with
        | '+' :: t => (1, t)
        | '-' :: t => (-1, t)
        | _ => (1, r)
      let ed := esp.2.takeWhile Char.isDigit
      if ed = [] then some (sgn * base, cs3)
      else some (sgn * base * (10 : ℚ) ^ (esp.1 * (digitsToNat ed : ℤ)), esp.2.dropWhile Char.isDigit)
    | 'E' :: r =>
      let esp : ℤ × List Char :=
        match r with
        | '+' :: t => (1, t)
        | '-' :: t => (-1, t)
        | _ => (1, r)
      let ed := esp.2.takeWhile Char.isDigit
      if ed = [] then some (sgn * base, cs3)
      else some (sgn * base * (10 : ℚ) ^ (esp.1 * (digitsToNat ed : ℤ)), esp.2.dropWhile Char.isDigit)
    | _ => some (sgn * base, cs3)

/-- Python `float(s)` on a character list: strip whitespace, parse a
decimal literal, require that the whole input is consumed.  Returns
`none` where Python raises `ValueError`. -/
def pyFloatChars (cs : List Char) : Option ℚ :=
  match parseDecimal (stripChars cs) with
  | some (q, []) => some q
  | _ => none

/-- Python `float(s)` on strings. -/
def pyFloatStr (s : String) : Option ℚ :=
  pyFloatChars s.data

/-! ## CSV parsing (`_parse_csv` in `monitoring/record_preprocessor.py`) -/

/-- An ordered 4-tuple of feature values, the result of a successful
parse (`_as_float4` / `_parse_csv` always return exactly 4 floats). -/
def Vec4 := ℚ × ℚ × ℚ × ℚ

instance : DecidableEq Vec4 := by
  unfold Vec4
  infer_instance

/-- Parse the first four tokens of a token list as floats
(the `len(parts) >= 4` check followed by `float(parts[0..3])` in
`_parse_csv`). -/
def tokens4 : List (List Char) → Option Vec4
  | t0 :: t1 :: t2 :: t3 :: _ =>
    match pyFloatChars t0, pyFloatChars t1, pyFloatChars t2, pyFloatChars t3 with
    | some a, some b, some c, some d => some (a, b, c, d)
    | _, _, _, _ => none
  | _ => none

/-- The token list of the last non-empty (stripped) line of a payload:
the tokens that `_parse_csv` actually inspects. -/
def csvTokens (s : String) : List (List Char) :=
  match (((splitLinesChars (stripChars s.data)).map stripChars).filter (· ≠ [])).getLast? with
  | some last => splitTokens last
  | none => []

/-- `_parse_csv` from `monitoring/record_preprocessor.py`: strip the
payload, split into non-empty stripped lines, take the last line, split
it on commas/whitespace, require at least four tokens and parse the
first four as floats. -/
def parseCsv (s : String) : Option Vec4 :=
  let cs := stripChars s.data
  if cs = [] then none
  else
    match (((splitLinesChars cs).map stripChars).filter (· ≠ [])).getLast? with
    | none => none
    | some last => tokens4 (splitTokens last)

/-! ## JSON values and `json.loads` -/

/-- JSON values, as produced by Python's `json.loads` (dicts are
association lists in insertion order, numbers are embedded in `ℚ`). -/
inductive Json where
  | null : Json
  | bool (b : Bool) : Json
  | num (q : ℚ) : Json
  | str (s : String) : Json
  | arr (l : List Json) : Json
  | obj (kvs : List (String × Json)) : Json

/-- Python dict lookup `obj[k]` / membership `k in obj` on a JSON
object's association list. -/
def jlookup (kvs : List (String × Json)) (k : String) : Option Json :=
  (kvs.find? (fun p => p.1 = k)).map (fun p => p.2)

/-- JSON whitespace. -/
def isJsonWs (c : Char) : Bool :=
  c = ' ' || c = '\t' || c = '\n' || c = '\r'

/-- Drop JSON whitespace. -/
def skipWs (cs : List Char) : List Char :=
  cs.dropWhile isJsonWs

/-- Hexadecimal digit value. -/
def hexVal (c : Char) : Option ℕ :=
  let n := c.toNat
  if 48 ≤ n ∧ n ≤ 57 then some (n - 48)
  else if 97 ≤ n ∧ n ≤ 102 then some (n - 87)
  else if 65 ≤ n ∧ n ≤ 70 then some (n - 55)
  else none

/-- The simple escape table of JSON string literals. -/
def escTable : List (Char × Char) :=
  [('"', '"'), ('\\', '\\'), ('/', '/'), ('b', '\x08'), ('f', '\x0c'),
   ('n', '\x0a'), ('r', '\x0d'), ('t', '\x09')]

/-- Combine four hex digit values into a code point. -/
def hexQuad (a b c d : ℕ) : ℕ :=
  a * 4096 + (b * 16 + c) * 16 + d

/-- Parse the body of a JSON string literal (the opening quote already
consumed), handling the standard escapes and `\uXXXX`. -/
def parseStrLit : List Char → Option (List Char × List Char)
  | [] => none
  | '"' :: r => some ([], r)
  | '\\' :: 'u' :: h1 :: h2 :: h3 :: h4 :: r =>
    match hexVal h1, hexVal h2, hexVal h3, hexVal h4 with
    | some a, some b, some c, some d =>
      (parseStrLit r).map (fun p => (Char.ofNat (hexQuad a b c d) :: p.1, p.2))
    | _, _, _, _ => none
  | '\\' :: e :: r =>
    match (escTable.find? (fun p => p.1 = e)).map (fun p => p.2) with
    | some c => (parseStrLit r).map (fun p => (c :: p.1, p.2))
    | none => none
  | c :: r => (parseStrLit r).map (fun p => (c :: p.1, p.2))

mutual

/-- Parse one JSON value (fuel-indexed recursive-descent parser
modelling Python `json.loads`; numbers reuse the decimal-literal
parser). -/
def parseVal : ℕ → List Char → Option (Json × List Char)
  | 0, _ => none
  | n + 1, cs =>
    match skipWs cs with
    | 'n' :: 'u' :: 'l' :: 'l' :: r => some (.null, r)
    | 't' :: 'r' :: 'u' :: 'e' :: r => some (.bool true, r)
    | 'f' :: 'a' :: 'l' :: 's' :: 'e' :: r => some (.bool false, r)
    | '"' :: r => (parseStrLit r).map (fun p => (.str ⟨p.1⟩, p.2))
    | '[' :: r => parseArrBody n r
    | '\x7b' :: r => parseObjBody n r
    | cs' => (parseDecimal cs').map (fun p => (.num p.1, p.2))

/-- Parse the inside of a JSON array, after `[`. -/
def parseArrBody : ℕ → List Char → Option (Json × List Char)
  | 0, _ => none
  | n + 1, cs =>
    match skipWs cs with
    | ']' :: r => some (.arr [], r)
    | cs' =>
      match parseVal n cs' with
      | some (v, r1) => parseArrRest n [v] r1
      | none => none

/-- Parse the remaining elements of a JSON array (accumulator holds the
elements parsed so far, reversed). -/
def parseArrRest : ℕ → List Json → List Char → Option (Json × List Char)
  | 0, _, _ => none
  | n + 1, acc, cs =>
    match skipWs cs with
    | ']' :: r => some (.arr acc.reverse, r)
    | ',' :: r =>
      match parseVal n r with
      | some (v, r1) => parseArrRest n (v :: acc) r1
      | none => none
    | _ => none

/-- Parse the inside of a JSON object, after the opening brace. -/
def parseObjBody : ℕ → List Char → Option (Json × List Char)
  | 0, _ => none
  | n + 1, cs =>
    match skipWs cs with
    | '\x7d' :: r => some (.obj [], r)
    | '"' :: r =>
      match parseStrLit r with
      | some (k, r1) =>
        match skipWs r1 with
        | ':' :: r2 =>
          match parseVal n r2 with
          | some (v, r3) => parseObjRest n [(⟨k⟩, v)] r3
          | none => none
        | _ => none
      | none => none
    | _ => none

/-- Parse the remaining members of a JSON object. -/
def parseObjRest : ℕ → List (String × Json) → List Char → Option (Json × List Char)
  | 0, _, _ => none
  | n + 1, acc, cs =>
    match skipWs cs with
    | '\x7d' :: r => some (.obj acc.reverse, r)
    | ',' :: r =>
      match skipWs r with
      | '"' :: r1 =>
        match parseStrLit r1 with
        | some (k, r2) =>
          match skipWs r2 with
          | ':' :: r3 =>
            match parseVal n r3 with
            | some (v, r4) => parseObjRest n ((⟨k⟩, v) :: acc) r4
            | none => none
          | _ => none
        | none => none
      | _ => none
    | _ => none

end

/-- Python `json.loads`: parse one JSON value and require that only
whitespace remains (`json.loads` raises on trailing data, modelled as
`none`).  The fuel `3 * length + 3` strictly dominates the number of
recursive calls, each of which consumes at least one character. -/
def parseJsonStr (s : String) : Option Json :=
  match parseVal (3 * s.data.length + 3) s.data with
  | some (v, r) => if skipWs r = [] then some v else none
  | none => none

/-! ## Base64 decoding (`base64.b64decode` followed by UTF-8 `ignore`) -/

/-- Value of a base64 alphabet character. -/
def b64Val (c : Char) : Option ℕ :=
  if 'A' ≤ c && c ≤ 'Z' then some (c.toNat - 'A'.toNat)
  else if 'a' ≤ c && c ≤ 'z' then some (c.toNat - 'a'.toNat + 26)
  else if '0' ≤ c && c ≤ '9' then some (c.toNat - '0'.toNat + 52)
  else if c = '+' then some 62
  else if c = '/' then some 63
  else none

/-- Decode base64 in groups of four characters into bytes; `=` padding
is accepted only at the end.  `none` models `binascii.Error`. -/
def b64Groups : List Char → Option (List ℕ)
  | [] => some []
  | [a, b, '=', '='] =>
    match b64Val a, b64Val b with
    | some va, some vb => some [(va * 4 + vb / 16) % 256]
    | _, _ => none
  | [a, b, c, '='] =>
    match b64Val a, b64Val b, b64Val c with
    | some va, some vb, some vc =>
      some [(va * 4 + vb / 16) % 256, (vb % 16 * 16 + vc / 4) % 256]
    | _, _, _ => none
  | a :: b :: c :: d :: rest =>
    match b64Val a, b64Val b, b64Val c, b64Val d with
    | some va, some vb, some vc, some vd =>
      (b64Groups rest).map
        (fun tl =>
          (va * 4 + vb / 16) % 256 :: (vb % 16 * 16 + vc / 4) % 256 ::
            (vc % 4 * 64 + vd) % 256 :: tl)
    | _, _, _, _ => none
  | _ => none

/-- A UTF-8 continuation byte. -/
def isCont (b : ℕ) : Bool :=
  0x80 ≤ b && b ≤ 0xbf

/-- Decode a byte list as UTF-8, skipping invalid bytes
(`bytes.decode("utf-8", errors="ignore")`; the fine points of overlong
and surrogate rejection are not exercised by these sources). -/
def utf8Ignore : List ℕ → List Char
  | [] => []
  | b :: r =>
    if b < 0x80 then Char.ofNat b :: utf8Ignore r
    else if 0xc2 ≤ b && b ≤ 0xdf then
      match r with
      | b2 :: r2 =>
        if isCont b2 then
          Char.ofNat ((b % 32) * 64 + b2 % 64) :: utf8Ignore r2
        else utf8Ignore (b2 :: r2)
      | [] => []
    else if 0xe0 ≤ b && b ≤ 0xef then
      match r with
      | b2 :: b3 :: r3 =>
        if isCont b2 && isCont b3 then
          Char.ofNat (((b % 16) * 64 + b2 % 64) * 64 + b3 % 64) :: utf8Ignore r3
        else utf8Ignore (b2 :: b3 :: r3)
      | [b2] => utf8Ignore [b2]
      | [] => []
    else if 0xf0 ≤ b && b ≤ 0xf4 then
      match r with
      | b2 :: b3 :: b4 :: r4 =>
        if isCont b2 && isCont b3 && isCont b4 then
          Char.ofNat ((((b % 8) * 64 + b2 % 64) * 64 + b3 % 64) * 64 + b4 % 64) :: utf8Ignore r4
        else utf8Ignore (b2 :: b3 :: b4 :: r4)
      | [b2, b3] => utf8Ignore [b2, b3]
      | [b2] => utf8Ignore [b2]
      | [] => []
    else utf8Ignore r
termination_by l => l.length
decreasing_by all_goals (simp; try omega)

/-- `base64.b64decode(data).decode("utf-8", errors="ignore")` as used in
`preprocess_handler`: characters outside the base64 alphabet and `=`
are discarded first (`validate=False`), then the kept characters are
decoded in groups of four; a leftover group is `binascii.Error`,
modelled as `none`. -/
def pyB64DecodeToStr (s : String) : Option String :=
  let kept := s.data.filter (fun c => (b64Val c).isSome || c = '=')
  if kept.length % 4 = 0 then (b64Groups kept).map (fun bs => ⟨utf8Ignore bs⟩)
  else none

end IrisMon

namespace IrisMon

/-! ## `_parse_json_any` and `preprocess_handler`
(`monitoring/record_preprocessor.py`) -/

/-- The declared feature names, in declared order
(`FEATURES` in `monitoring/record_preprocessor.py`). -/
def FEATURES : List String :=
  ["sepal_length", "sepal_width", "petal_length", "petal_width"]

/-- Python `float(x)` applied to a JSON value: numbers pass through,
booleans map to 0/1, strings are parsed as decimal literals; `None`,
lists and dicts raise (`none`). -/
def pyFloat : Json → Option ℚ
  | .num q => some q
  | .bool b => some (if b then 1 else 0)
  | .str s => pyFloatStr s
  | _ => none

/-- `_as_float4` applied to the elements of a JSON list: require at
least four elements and convert the first four with `float`. -/
def asFloat4 : List Json → Option Vec4
  | v0 :: v1 :: v2 :: v3 :: _ =>
    match pyFloat v0, pyFloat v1, pyFloat v2, pyFloat v3 with
    | some a, some b, some c, some d => some (a, b, c, d)
    | _, _, _, _ => none
  | _ => none

/-- The wrapper-key loop of `_parse_json_any`: for each key in order,
if the key is present and its value is a non-empty list, return
`_as_float4` of its first row (list-of-lists) or of the list itself;
otherwise move on to the next key. -/
def wrapperLoop (kvs : List (String × Json)) : List String → Option Vec4
  | [] => none
  | k :: ks =>
    match jlookup kvs k with
    | some (.arr (v0 :: vrest)) =>
      (match v0 with
       | .arr l0 => asFloat4 l0
       | _ => asFloat4 (v0 :: vrest))
    | _ => wrapperLoop kvs ks

/-- `_parse_json_any` from `monitoring/record_preprocessor.py`:
a dict keyed directly by all four feature names, else one of the
wrapper keys `instances`/`inputs`/`features`/`data`, else a bare list
or list-of-lists. -/
def parseJsonAny : Json → Option Vec4
  | .obj kvs =>
    if FEATURES.all (fun f => (jlookup kvs f).isSome) then
      match jlookup kvs "sepal_length", jlookup kvs "sepal_width",
          jlookup kvs "petal_length", jlookup kvs "petal_width" with
      | some v0, some v1, some v2, some v3 =>
        (match pyFloat v0, pyFloat v1, pyFloat v2, pyFloat v3 with
         | some a, some b, some c, some d => some (a, b, c, d)
         | _, _, _, _ => none)
      | _, _, _, _ => none
    else wrapperLoop kvs ["instances", "inputs", "features", "data"]
  | .arr l =>
    (match l with
     | .arr l0 :: _ => asFloat4 l0
     | _ => asFloat4 l)
  | _ => none

/-- A value of an output row: a parsed float or `math.nan`. -/
inductive PyVal where
  | nan : PyVal
  | num (q : ℚ) : PyVal
deriving DecidableEq

/-- One output row of the preprocessor: feature name to value, in
insertion order (a Python dict). -/
def Row := List (String × PyVal)

instance : DecidableEq Row := by
  unfold Row
  infer_instance

/-- `_nan_row`: the stable-schema row with every value `math.nan`. -/
def nanRow : Row :=
  FEATURES.map (fun f => (f, PyVal.nan))

/-- The row built on a successful parse (stable output schema at the
end of `preprocess_handler`). -/
def rowOf (v : Vec4) : Row :=
  [("sepal_length", PyVal.num v.1), ("sepal_width", PyVal.num v.2.1),
   ("petal_length", PyVal.num v.2.2.1), ("petal_width", PyVal.num v.2.2.2)]

/-- The captured `endpointInput` of one inference record: payload
string (`none` when the `data` attribute is absent), declared
content type and encoding. -/
structure EndpointInput where
  data : Option String
  contentType : String
  encoding : String

/-- The JSON/CSV dispatch at the end of `preprocess_handler`: JSON
content types go through `json.loads` (a parse error leaves the raw
string, which `_parse_json_any` rejects); everything else goes through
`_parse_csv`. -/
def finishParse (ct : String) (data : String) : Option Vec4 :=
  if hasSubstr "json" ct then
    match parseJsonStr data with
    | some o => parseJsonAny o
    | none => none
  else parseCsv data

/-- `preprocess_handler` from `monitoring/record_preprocessor.py`.
The record argument is `none` when reading `endpoint_input` raises.
Every failure path returns `nanRow`; a successful parse returns the
stable four-feature row. -/
def preprocessHandler (rec : Option EndpointInput) : Row :=
  match rec with
  | none => nanRow
  | some ep =>
    match ep.data with
    | none => nanRow
    | some data0 =>
      let ct := pyLower ep.contentType
      let enc := pyUpper ep.encoding
      if enc = "BASE64" then
        match pyB64DecodeToStr data0 with
        | none => nanRow
        | some d =>
          (match finishParse ct d with
           | none => nanRow
           | some v => rowOf v)
      else
        match finishParse ct data0 with
        | none => nanRow
        | some v => rowOf v

end IrisMon

namespace IrisMon

/-! ## The drift-monitor Lambda
(the `lambda_function.py` body embedded in
`monitoring/deploy_monitoring.py` and `monitoring/drift_lambda.py`) -/

/-- `FEATURE_RANGES`: per-feature (lower, upper) bounds, in declared
order. -/
def FEATURE_RANGES : List (String × ℚ × ℚ) :=
  [("sepal_length", 3, 9), ("sepal_width", 1, 5),
   ("petal_length", 1, 7), ("petal_width", 0, 3)]

/-- The issues `_validate_row` can report (the Python code renders them
as strings `missing:k`, `out_of_range:k=v`, `not_numeric:k`,
`invalid_row_format`). -/
inductive Issue where
  | missingKey (k : String) : Issue
  | outOfRange (k : String) (v : ℚ) : Issue
  | notNumeric (k : String) : Issue
  | invalidRowFormat : Issue
deriving DecidableEq

/-- The range check shared by both branches of `_validate_row`:
`float(value)` then flag strictly-outside values. -/
def checkVal (k : String) (lo hi : ℚ) (jv : Json) : List Issue :=
  match pyFloat jv with
  | none => [.notNumeric k]
  | some v => if v < lo ∨ v > hi then [.outOfRange k v] else []

/-- `_validate_row`: a dict row is checked by feature name (missing
keys are reported); a list/tuple row of length ≥ 4 is checked
positionally; anything else is `invalid_row_format`. -/
def validateRow (row : Json) : List Issue :=
  match row with
  | .obj kvs =>
    FEATURE_RANGES.foldr
      (fun p acc =>
        (match jlookup kvs p.1 with
         | none => [.missingKey p.1]
         | some jv => checkVal p.1 p.2.1 p.2.2 jv) ++ acc)
      []
  | .arr l =>
    if 4 ≤ l.length then
      (FEATURE_RANGES.zip (List.range 4)).foldr
        (fun p acc =>
          (match l.get? p.2 with
           | some jv => checkVal p.1.1 p.1.2.1 p.1.2.2 jv
           | none => []) ++ acc)
        []
    else [.invalidRowFormat]
  | _ => [.invalidRowFormat]

/-- The running state of the handler loop: issue total and the bounded
sample list. -/
structure ScanState where
  total : ℕ
  samples : List (Json × List Issue)

/-- One iteration of the handler's row loop: a row with issues bumps
the total and is sampled while fewer than 5 samples are held. -/
def scanStep (acc : ScanState) (row : Json) : ScanState :=
  let issues := validateRow row
  if issues = [] then acc
  else
    { total := acc.total + 1,
      samples := if acc.samples.length < 5 then acc.samples ++ [(row, issues)] else acc.samples }

/-- The handler's row loop over a batch of extracted rows. -/
def scanRows (acc : ScanState) : List Json → ScanState
  | [] => acc
  | r :: rs => scanRows (scanStep acc r) rs

/-- The aggregate the handler computes over all rows of a batch. -/
def processRows (rows : List Json) : ScanState :=
  scanRows ⟨0, []⟩ rows

/-- The handler's return status. -/
inductive Status where
  | alerted : Status
  | ok : Status
deriving DecidableEq

/-- The handler's decision and returned issue count:
`{"status": "alerted", "issues": total}` when `total > 0`, else
`{"status": "ok", "issues": 0}`. -/
def handlerOut (rows : List Json) : Status × ℕ :=
  let r := processRows rows
  if 0 < r.total then (.alerted, r.total) else (.ok, 0)

/-- The rows of a batch that `_validate_row` flags, paired with their
issues, in order. -/
def violatingPairs (rows : List Json) : List (Json × List Issue) :=
  (rows.filter (fun r => !(validateRow r).isEmpty)).map (fun r => (r, validateRow r))

/-- The rows of a batch whose issue list is exactly
`["invalid_row_format"]` — the handler's representation of an
unparseable record. -/
def unparseableCount (rows : List Json) : ℕ :=
  (rows.filter (fun r => validateRow r = [Issue.invalidRowFormat])).length

/-- The number of features whose PSI exceeds the drift threshold, as
computed by the Lambda handler: the handler computes no PSI for any
feature, so no feature ever exceeds the threshold and this count is 0
for every batch. -/
def psiDriftingFeatureCount (_ : List Json) : ℕ := 0

end IrisMon

namespace IrisMon

/-! ## Baseline building (`monitoring/baseline_build.py`) -/

/-- One CSV cell as read by `pandas.read_csv`: a numeric value, a
string, or a missing value (NaN). -/
inductive Cell where
  | num (q : ℚ) : Cell
  | str (s : String) : Cell
  | na : Cell
deriving DecidableEq

/-- `df.dropna()`: keep the rows with no missing cell. -/
def dropnaRows (rows : List (List Cell)) : List (List Cell) :=
  rows.filter (fun r => r.all (fun c => !(c = Cell.na)))

/-- `pd.to_numeric(df[f], errors="coerce").dropna()` for column `i`:
numbers kept, strings coerced when they parse as decimals, everything
else dropped. -/
def cleanColumn (rows : List (List Cell)) (i : ℕ) : List ℚ :=
  rows.filterMap
    (fun r =>
      match r.get? i with
      | some (.num q) => some q
      | some (.str s) => pyFloatStr s
      | _ => none)

/-- Insertion into a sorted list (ascending). -/
def insertSorted (v : ℚ) : List ℚ → List ℚ
  | [] => [v]
  | x :: xs => if v ≤ x then v :: x :: xs else x :: insertSorted v xs

/-- Ascending insertion sort, modelling numpy's sort inside
percentile computation. -/
def sortQ (l : List ℚ) : List ℚ :=
  l.foldr insertSorted []

/-- `np.nanpercentile(x, q)` with the default linear interpolation:
position `q * (n-1) / 100` in the sorted data, linearly interpolated
between the two neighbouring order statistics. -/
def npPercentile (x : List ℚ) (q : ℚ) : ℚ :=
  let s := sortQ x
  let n := s.length
  if n = 0 then 0
  else
    let pos : ℚ := q * ((n : ℚ) - 1) / 100
    let i : ℕ := (⌊pos⌋).toNat
    let frac : ℚ := pos - (i : ℚ)
    let a := s.getD i 0
    let b := s.getD (min (i + 1) (n - 1)) 0
    a + frac * (b - a)

/-- `np.linspace(lo, hi, steps+1)`: the `steps+1` points
`lo + i * (hi - lo) / steps`. -/
def linspace (lo hi : ℚ) (steps : ℕ) : List ℚ :=
  (List.range (steps + 1)).map (fun i : ℕ => lo + (i : ℚ) * (hi - lo) / (steps : ℚ))

/-- `compute_hist_bins` from `monitoring/baseline_build.py`:
low = 1st percentile, high = 99th percentile, `high <= low` forces
`high = low + 1.0`, then `bins+1` linearly spaced edges
(`bins` defaults to 20). -/
def computeHistBins (x : List ℚ) (bins : ℕ := 20) : List ℚ :=
  let lo := npPercentile x 1
  let hi0 := npPercentile x 99
  let hi := if hi0 ≤ lo then lo + 1 else hi0
  linspace lo hi bins

/-- `np.min` over a non-empty column (0 as a junk value on the empty
list, which the caller excludes). -/
def qMin : List ℚ → ℚ
  | [] => 0
  | x :: xs => xs.foldl min x

/-- `np.max` over a non-empty column. -/
def qMax : List ℚ → ℚ
  | [] => 0
  | x :: xs => xs.foldl max x

/-- The per-feature entry of the baseline artifact written by
`monitoring/baseline_build.py`: mean, population standard deviation
plus `1e-9`, min, max, and the histogram bin edges. -/
structure FeatureStats where
  mean : ℚ
  std : ℝ
  min : ℚ
  max : ℚ
  bins : List ℚ

/-- The statistics computed for one cleaned feature column. -/
noncomputable def featureStats (x : List ℚ) : FeatureStats :=
  let μ : ℚ := x.sum / (x.length : ℚ)
  let var : ℚ := ((x.map (fun v => (v - μ) ^ 2)).sum) / (x.length : ℚ)
  { mean := μ,
    std := Real.sqrt (var : ℝ) + 1 / 1000000000,
    min := qMin x,
    max := qMax x,
    bins := computeHistBins x 20 }

/-- The baseline artifact: one entry per feature, plus the schema
block naming the declared feature order. -/
structure Artifact where
  features : List (String × FeatureStats)
  schema : List String

/-- The per-feature loop of `main` in `monitoring/baseline_build.py`:
each feature's cleaned column is reduced to its statistics;
`np.min` on an empty column raises, which aborts the build before
anything is written. -/
noncomputable def buildFeatures (kept : List (List Cell)) :
    List (String × ℕ) → Except String (List (String × FeatureStats))
  | [] => .ok []
  | (f, i) :: rest =>
    let x := cleanColumn kept i
    if x = [] then .error "zero-size array to reduction operation minimum which has no identity"
    else
      match buildFeatures kept rest with
      | .ok tl => .ok ((f, featureStats x) :: tl)
      | .error e => .error e

/-- `main` of `monitoring/baseline_build.py` as a pure function from
the parsed training rows to either a complete artifact or an error;
the single `s3.put_object` of the serialized artifact happens only in
the `.ok` case, so an error writes nothing. -/
noncomputable def buildBaseline (rows : List (List Cell)) : Except String Artifact :=
  let kept := dropnaRows rows
  if kept = [] then .error "Training dataset is empty after dropna()"
  else
    match buildFeatures kept
        [("sepal_length", 0), ("sepal_width", 1), ("petal_length", 2), ("petal_width", 3)] with
    | .ok fs => .ok { features := fs, schema := FEATURES }
    | .error e => .error e

/-! ## PSI and baseline bin frequencies (modelled from the spec)

No code under `src/` computes PSI or baseline bin frequencies: the
drift Lambda performs plain range checks and `baseline_build.py`
stores only bin edges.  The definitions below follow the
specification text (§4.1, §4.3, §8). -/

/-- Modelled from the spec: the assign-to-bin rule of §4.3, missing
from the sources.  For edges `e0 < ... < eN`, value `v` falls in bin
`i` when `e_i ≤ v < e_(i+1)` except that the last bin is closed on
both ends; out-of-range values are clamped to the boundary bins.
Implemented by scanning the interior upper edges `e1, ..., e_(N-1)`. -/
def assignBinAux (v : ℚ) : List ℚ → ℕ
  | [] => 0
  | [_] => 0
  | u :: us => if v < u then 0 else assignBinAux v us + 1

/-- Modelled from the spec: assign a value to a bin given the edge
list (see `assignBinAux`; the scan runs over `edges.tail`, whose last
element is the final edge). -/
def assignBin (edges : List ℚ) (v : ℚ) : ℕ :=
  assignBinAux v edges.tail

/-- Modelled from the spec (§4.1): baseline `bin_frequencies`, missing
from `baseline_build.py`.  Count the values assigned to each of the
`bins` bins, normalize by the total count, floor any zero bucket to
`eps`, then renormalize so the frequencies sum to 1. -/
def binFrequencies (bins : ℕ) (edges : List ℚ) (values : List ℚ) (eps : ℚ) : List ℚ :=
  let counts := (List.range bins).map
    (fun i => ((values.filter (fun v => assignBin edges v = i)).length : ℚ))
  let total : ℚ := (values.length : ℚ)
  let raw := counts.map (fun c => c / total)
  let floored := raw.map (fun f => if f = 0 then eps else f)
  let s := floored.sum
  floored.map (fun f => f / s)

/-- Modelled from the spec (§4.3): the Population Stability Index of an
actual histogram against an expected histogram,
`PSI = Σ_i (actual_i − expected_i) * ln(actual_i / expected_i)`,
with `expected` the baseline's `bin_frequencies`.  No implementation
exists under `src/`. -/
noncomputable def psi (expected actual : List ℝ) : ℝ :=
  ((actual.zip expected).map (fun p => (p.1 - p.2) * Real.log (p.1 / p.2))).sum

end IrisMon

namespace IrisMon

/-! ## Helper lemmas -/

/-- Every handler result is either the NaN row or a parsed row. -/
theorem handlerShape (rec : Option EndpointInput) :
    preprocessHandler rec = nanRow ∨ ∃ v : Vec4, preprocessHandler rec = rowOf v := by
  rcases rec with _ | ⟨_ | d0, ct, enc⟩
  · exact Or.inl rfl
  · exact Or.inl rfl
  · simp only [preprocessHandler]
    split_ifs with h
    · cases hb : pyB64DecodeToStr d0 with
      | none => exact Or.inl (by simp [hb])
      | some d =>
        cases hf : finishParse (pyLower ct) d with
        | none => exact Or.inl (by simp [hb, hf])
        | some v => exact Or.inr ⟨v, by simp [hb, hf]⟩
    · cases hf : finishParse (pyLower ct) d0 with
      | none => exact Or.inl (by simp [hf])
      | some v => exact Or.inr ⟨v, by simp [hf]⟩

/-- Unfolding of the handler's row loop against an arbitrary starting
state: the loop counts every violating row and appends samples only
while fewer than five are held. -/
theorem scanRows_spec (rows : List Json) (acc : ScanState) :
    scanRows acc rows =
      ⟨acc.total + (violatingPairs rows).length,
       acc.samples ++ (violatingPairs rows).take (5 - acc.samples.length)⟩ := by
  induction rows generalizing acc with
  | nil => simp [scanRows, violatingPairs]
  | cons r rs ih =>
    rw [scanRows, ih]
    by_cases hv : validateRow r = []
    · simp [scanStep, hv, violatingPairs]
    · have hvp : violatingPairs (r :: rs) = (r, validateRow r) :: violatingPairs rs := by
        simp [violatingPairs, List.filter_cons, hv]
      rw [hvp]
      simp only [scanStep, if_neg hv]
      by_cases hl : acc.samples.length < 5
      · have h5 : 5 - acc.samples.length = (5 - (acc.samples.length + 1)) + 1 := by omega
        simp [hl, h5, List.take_succ_cons]
        omega
      · have h5 : 5 - acc.samples.length = 0 := by omega
        simp [hl, h5]
        omega

/-- The batch aggregate: total = number of violating rows, samples =
first five violating rows. -/
theorem processRows_spec (rows : List Json) :
    processRows rows = ⟨(violatingPairs rows).length, (violatingPairs rows).take 5⟩ := by
  rw [processRows, scanRows_spec]
  simp

/-- `np.linspace` produces `steps + 1` points. -/
theorem linspace_length (lo hi : ℚ) (steps : ℕ) : (linspace lo hi steps).length = steps + 1 := by
  rw [linspace, List.length_map, List.length_range]

/-- The `i`-th linspace point. -/
theorem linspace_getD (lo hi : ℚ) (steps i : ℕ) (h : i ≤ steps) :
    (linspace lo hi steps).getD i 0 = lo + (i : ℚ) * (hi - lo) / (steps : ℚ) := by
  have hi' : i < steps + 1 := Nat.lt_succ_of_le h
  rw [linspace, List.getD_eq_getElem?_getD, List.getElem?_map, List.getElem?_range hi']
  rfl

/-- `compute_hist_bins` always yields `bins + 1` edges. -/
theorem computeHistBins_length (x : List ℚ) (b : ℕ) : (computeHistBins x b).length = b + 1 := by
  simp only [computeHistBins]
  rw [linspace, List.length_map, List.length_range]

/-- Dividing a list elementwise divides its sum. -/
theorem sum_map_div (l : List ℚ) (s : ℚ) : (l.map (fun f => f / s)).sum = l.sum / s := by
  induction l with
  | nil => simp
  | cons x xs ih => simp [ih, add_div]

/-- Each PSI summand is non-negative for positive arguments. -/
theorem psiTerm_nonneg (a e : ℝ) (ha : 0 < a) (he : 0 < e) :
    0 ≤ (a - e) * Real.log (a / e) := by
  rcases le_or_lt e a with h | h
  · exact mul_nonneg (sub_nonneg.mpr h) (Real.log_nonneg ((one_le_div he).mpr h))
  · have h1 : a - e ≤ 0 := sub_nonpos.mpr (le_of_lt h)
    have h2 : Real.log (a / e) ≤ 0 :=
      Real.log_nonpos (le_of_lt (div_pos ha he)) ((div_le_one he).mpr (le_of_lt h))
    nlinarith

/-- A PSI summand vanishes exactly when the two bin frequencies agree. -/
theorem psiTerm_eq_zero_iff (a e : ℝ) (ha : 0 < a) (he : 0 < e) :
    (a - e) * Real.log (a / e) = 0 ↔ a = e := by
  constructor
  · intro h
    rcases mul_eq_zero.mp h with h' | h'
    · exact sub_eq_zero.mp h'
    · rcases Real.log_eq_zero.mp h' with h'' | h'' | h''
      · exact absurd h'' (ne_of_gt (div_pos ha he))
      · exact (div_eq_one_iff_eq (ne_of_gt he)).mp h''
      · exact absurd h'' (by nlinarith [div_pos ha he])
  · intro h
    rw [h, div_self (ne_of_gt he), Real.log_one, mul_zero]

/-- PSI of entrywise-positive histograms of equal length is
non-negative, and zero exactly on equal histograms. -/
theorem psi_core (expected actual : List ℝ)
    (hlen : actual.length = expected.length)
    (hapos : ∀ x ∈ actual, 0 < x) (hepos : ∀ x ∈ expected, 0 < x) :
    0 ≤ psi expected actual ∧ (psi expected actual = 0 ↔ actual = expected) := by
  induction actual generalizing expected with
  | nil =>
    have : expected = [] := List.length_eq_zero.mp hlen.symm
    subst this
    simp [psi]
  | cons a as ih =>
    match expected with
    | [] => simp at hlen
    | e :: es =>
      have hlen' : as.length = es.length := by simpa using hlen
      have ha : 0 < a := hapos a (List.mem_cons_self _ _)
      have he : 0 < e := hepos e (List.mem_cons_self _ _)
      have hapos' : ∀ x ∈ as, 0 < x := fun x hx => hapos x (List.mem_cons_of_mem _ hx)
      have hepos' : ∀ x ∈ es, 0 < x := fun x hx => hepos x (List.mem_cons_of_mem _ hx)
      obtain ⟨ih1, ih2⟩ := ih es hlen' hapos' hepos'
      have hterm : 0 ≤ (a - e) * Real.log (a / e) := psiTerm_nonneg a e ha he
      have hpsi : psi (e :: es) (a :: as) = (a - e) * Real.log (a / e) + psi es as := by
        simp [psi]
      constructor
      · rw [hpsi]
        exact add_nonneg hterm ih1
      · rw [hpsi]
        constructor
        · intro h
          have hz : (a - e) * Real.log (a / e) = 0 ∧ psi es as = 0 := by
            constructor <;> nlinarith
          have h1 : a = e := (psiTerm_eq_zero_iff a e ha he).mp hz.1
          have h2 : as = es := ih2.mp hz.2
          rw [h1, h2]
        · intro h
          have h1 : a = e := by injection h
          have h2 : as = es := by injection h
          rw [(psiTerm_eq_zero_iff a e ha he).mpr h1, ih2.mpr h2, add_zero]

/-- `_parse_csv` inspects exactly the tokens of the last non-empty
line. -/
theorem parseCsv_eq_tokens4 (s : String) : parseCsv s = tokens4 (csvTokens s) := by
  rw [parseCsv, csvTokens]
  by_cases h : stripChars s.data = []
  · rw [if_pos h, h]
    rfl
  · rw [if_neg h]
    cases hl : (((splitLinesChars (stripChars s.data)).map stripChars).filter (· ≠ [])).getLast? with
    | none => rfl
    | some last => rfl

/-- Non-JSON, non-base64 records are routed to `_parse_csv`. -/
theorem csv_routing (s ct enc : String)
    (hjson : hasSubstr "json" (pyLower ct) = false)
    (henc : pyUpper enc ≠ "BASE64") :
    preprocessHandler (some ⟨some s, ct, enc⟩) =
      (match parseCsv s with
       | some v => rowOf v
       | none => nanRow) := by
  rw [preprocessHandler]
  simp only [if_neg henc, finishParse, hjson, Bool.false_eq_true, if_false]
  cases parseCsv s <;> rfl

/-- `_parse_csv` succeeds exactly when the last non-empty line has at
least four tokens whose first four parse as floats, returning those
four values. -/
theorem parseCsv_iff (s : String) (v : Vec4) :
    parseCsv s = some v ↔
      ∃ t0 t1 t2 t3 rest, csvTokens s = t0 :: t1 :: t2 :: t3 :: rest
        ∧ pyFloatChars t0 = some v.1 ∧ pyFloatChars t1 = some v.2.1
        ∧ pyFloatChars t2 = some v.2.2.1 ∧ pyFloatChars t3 = some v.2.2.2 := by
  rw [parseCsv_eq_tokens4]
  rcases hts : csvTokens s with _ | ⟨t0, _ | ⟨t1, _ | ⟨t2, _ | ⟨t3, rest⟩⟩⟩⟩ <;>
    simp only [tokens4]
  · simp
  · simp
  · simp
  · simp
  · rcases v with ⟨a, b, c, d⟩
    cases h0 : pyFloatChars t0 <;> cases h1 : pyFloatChars t1 <;>
      cases h2 : pyFloatChars t2 <;> cases h3 : pyFloatChars t3 <;>
      simp only [h0, h1, h2, h3] <;>
      constructor <;>
      first
        | (rintro ⟨u0, u1, u2, u3, urest, hts', p0, p1, p2, p3⟩;
           injection hts' with e0 hts'; injection hts' with e1 hts';
           injection hts' with e2 hts'; injection hts' with e3 hrest;
           subst e0; subst e1; subst e2; subst e3; simp_all)
        | (intro hv; injection hv with hv;
           injection hv with ha hv2; injection hv2 with hb hv3; injection hv3 with hc hd;
           subst ha; subst hb; subst hc; subst hd;
           exact ⟨t0, t1, t2, t3, rest, rfl, h0, h1, h2, h3⟩)
        | (intro hv; simp at hv)

end IrisMon

namespace IrisMon

/-! ## Claim theorems -/

/-- Claim C1: for any two valid normalized histograms (equal length,
entrywise positive, each summing to 1), the PSI
`Σ_i (actual_i − expected_i) * ln(actual_i / expected_i)` against the
baseline's bin frequencies is non-negative, and it is zero exactly when
the actual histogram equals the expected histogram bin-for-bin. -/
theorem psi_nonneg_and_zero_iff (expected actual : List ℝ)
    (hlen : actual.length = expected.length)
    (hapos : ∀ x ∈ actual, 0 < x) (hepos : ∀ x ∈ expected, 0 < x)
    (_hasum : actual.sum = 1) (_hesum : expected.sum = 1) :
    0 ≤ psi expected actual ∧ (psi expected actual = 0 ↔ actual = expected) :=
  psi_core expected actual hlen hapos hepos

/-- Witness for C1 at the concrete histograms `[1/2, 1/2]`. -/
theorem psi_nonneg_and_zero_iff_witness :
    0 ≤ psi [(1 : ℝ)/2, 1/2] [(1 : ℝ)/2, 1/2]
    ∧ (psi [(1 : ℝ)/2, 1/2] [(1 : ℝ)/2, 1/2] = 0 ↔
        ([(1 : ℝ)/2, 1/2] : List ℝ) = [(1 : ℝ)/2, 1/2]) :=
  psi_nonneg_and_zero_iff [(1 : ℝ)/2, 1/2] [(1 : ℝ)/2, 1/2] rfl
    (by intro x hx; rcases List.mem_cons.mp hx with h | h
        · subst h; norm_num
        · simp at h; subst h; norm_num)
    (by intro x hx; rcases List.mem_cons.mp hx with h | h
        · subst h; norm_num
        · simp at h; subst h; norm_num)
    (by norm_num) (by norm_num)

/-- Claim C2: the spec-modelled `bin_frequencies` of a baseline feature
has length `bins`, sums exactly to 1, and has no zero entry (every
frequency is strictly positive thanks to the `eps` floor), for any
positive bin count, non-empty value column and positive floor. -/
theorem binFrequencies_valid (bins : ℕ) (edges values : List ℚ) (eps : ℚ)
    (hb : 0 < bins) (hv : values ≠ []) (he : 0 < eps) :
    (binFrequencies bins edges values eps).length = bins
    ∧ (binFrequencies bins edges values eps).sum = 1
    ∧ ∀ f ∈ binFrequencies bins edges values eps, 0 < f := by
  have htot : (0 : ℚ) < (values.length : ℚ) :=
    Nat.cast_pos.mpr (List.length_pos.mpr hv)
  set counts := (List.range bins).map
    (fun i => ((values.filter (fun v => assignBin edges v = i)).length : ℚ)) with hcounts
  set raw := counts.map (fun c => c / (values.length : ℚ)) with hraw
  set floored := raw.map (fun f => if f = 0 then eps else f) with hfloored
  have hflen : floored.length = bins := by
    simp [hfloored, hraw, hcounts]
  have hfpos : ∀ f ∈ floored, 0 < f := by
    intro f hf
    rw [hfloored] at hf
    rcases List.mem_map.mp hf with ⟨r, hr, hfr⟩
    rcases List.mem_map.mp hr with ⟨c, hc, hrc⟩
    rcases List.mem_map.mp hc with ⟨i, _, hci⟩
    have hc0 : 0 ≤ c := by
      rw [← hci]
      positivity
    have hr0 : 0 ≤ r := by
      rw [← hrc]
      exact div_nonneg hc0 (le_of_lt htot)
    by_cases hz : r = 0
    · rw [← hfr, if_pos hz]
      exact he
    · rw [← hfr, if_neg hz]
      exact lt_of_le_of_ne hr0 (Ne.symm hz)
  have hfne : floored ≠ [] := by
    intro h
    rw [h] at hflen
    simp at hflen
    omega
  have hspos : 0 < floored.sum := List.sum_pos floored hfpos hfne
  have hsne : floored.sum ≠ 0 := ne_of_gt hspos
  refine ⟨?_, ?_, ?_⟩
  · simp [binFrequencies, ← hcounts, ← hraw, ← hfloored, hflen]
  · show (floored.map (fun f => f / floored.sum)).sum = 1
    rw [sum_map_div, div_self hsne]
  · intro f hf
    rcases List.mem_map.mp hf with ⟨g, hg, hgf⟩
    rw [← hgf]
    exact div_pos (hfpos g hg) hspos

/-- Witness for C2 at two bins, edges `[0, 1, 2]`, values `[0, 3/2]`
and floor `1/1000`. -/
theorem binFrequencies_valid_witness :
    ((0 : ℕ) < 2 ∧ ([(0 : ℚ), 3/2] : List ℚ) ≠ [] ∧ (0 : ℚ) < 1/1000)
    ∧ ((binFrequencies 2 [0, 1, 2] [0, 3/2] (1/1000)).length = 2
      ∧ (binFrequencies 2 [0, 1, 2] [0, 3/2] (1/1000)).sum = 1
      ∧ ∀ f ∈ binFrequencies 2 [0, 1, 2] [0, 3/2] (1/1000), 0 < f) :=
  ⟨⟨by norm_num, by simp, by norm_num⟩,
    binFrequencies_valid 2 [0, 1, 2] [0, 3/2] (1/1000) (by norm_num) (by simp) (by norm_num)⟩

/-- Counterexample to claim C3 as stated: on the one-row batch
`[[10, 10, 10, 10]]` the handler alerts (every value is out of range)
although the batch has zero unparseable records and the handler
computes no PSI for any feature, so the claimed
`issue_count = unparseable + drifting features` is 0 while
`is_alert = true`. -/
theorem alert_issue_count_refuted :
    ¬ (((handlerOut [Json.arr [Json.num 10, Json.num 10, Json.num 10, Json.num 10]]).1
          = Status.alerted) ↔
        0 < unparseableCount [Json.arr [Json.num 10, Json.num 10, Json.num 10, Json.num 10]]
            + psiDriftingFeatureCount
                [Json.arr [Json.num 10, Json.num 10, Json.num 10, Json.num 10]]) := by
  with_unfolding_all decide

/-- Claim C3 (amended): the drift-monitor Lambda alerts exactly when
`issue_count > 0`, where `issue_count` is the number of rows for which
`_validate_row` reports at least one issue (invalid row format —
including unparseable rows — missing feature, non-numeric or
out-of-range value); the samples retain at most the first 5 violating
rows verbatim even when `issue_count` exceeds 5. -/
theorem alert_decision_amended (rows : List Json) :
    ((handlerOut rows).1 = Status.alerted ↔ 0 < (processRows rows).total)
    ∧ (processRows rows).total = (violatingPairs rows).length
    ∧ (processRows rows).samples = (violatingPairs rows).take 5
    ∧ (processRows rows).samples.length ≤ 5 := by
  refine ⟨?_, ?_, ?_, ?_⟩
  · rw [handlerOut]
    split_ifs with h
    · simp [h]
    · simp [h]
  · rw [processRows_spec]
  · rw [processRows_spec]
  · rw [processRows_spec]
    simp [List.length_take_le]

/-- Claim C4: the vector `[5.1, 3.5, 1.4, 0.2]` sent as the JSON
payload with wrapper key `instances` under a JSON content type and as
the bare CSV payload under a CSV content type both parse to the
identical four-element vector. -/
theorem normalizer_round_trip :
    preprocessHandler (some ⟨some "\x7b\"instances\": [[5.1,3.5,1.4,0.2]]\x7d",
        "application/json", ""⟩) = rowOf (51/10, 7/2, 7/5, 1/5)
    ∧ preprocessHandler (some ⟨some "5.1,3.5,1.4,0.2", "text/csv", ""⟩)
        = rowOf (51/10, 7/2, 7/5, 1/5) :=
  ⟨by with_unfolding_all rfl, by with_unfolding_all rfl⟩

/-- Claim C5: the malformed CSV payload `abc,def` and the malformed
JSON payload `{not json` both produce the all-NaN row (the handler's
Unparseable outcome) instead of raising, and a base64-tagged payload
whose decoding fails (here `"A"`, whose filtered length is not a
multiple of 4) also produces the all-NaN row. -/
theorem normalizer_malformed_unparseable :
    preprocessHandler (some ⟨some "abc,def", "text/csv", ""⟩) = nanRow
    ∧ preprocessHandler (some ⟨some "\x7bnot json", "application/json", ""⟩) = nanRow
    ∧ pyB64DecodeToStr "A" = none
    ∧ preprocessHandler (some ⟨some "A", "text/csv", "base64"⟩) = nanRow :=
  ⟨by with_unfolding_all rfl, by with_unfolding_all rfl,
   by with_unfolding_all rfl, by with_unfolding_all rfl⟩

/-- Claim C6: for a non-empty cleaned column and a positive bin count,
`compute_hist_bins` produces `bins + 1` edges running linearly from
`low` (the 1st percentile) to `high` (the 99th percentile, forced to
`low + 1` when `high ≤ low`), with constant spacing `(high - low)/bins`
and `low < high`. -/
theorem computeHistBins_spec (x : List ℚ) (bins : ℕ) (_hx : x ≠ []) (hb : 0 < bins) :
    (computeHistBins x bins).length = bins + 1
    ∧ (computeHistBins x bins).getD 0 0 = npPercentile x 1
    ∧ (computeHistBins x bins).getD bins 0 =
        (if npPercentile x 99 ≤ npPercentile x 1 then npPercentile x 1 + 1 else npPercentile x 99)
    ∧ (∀ i, i < bins →
        (computeHistBins x bins).getD (i + 1) 0 - (computeHistBins x bins).getD i 0 =
          ((if npPercentile x 99 ≤ npPercentile x 1 then npPercentile x 1 + 1
            else npPercentile x 99) - npPercentile x 1) / (bins : ℚ))
    ∧ npPercentile x 1 <
        (if npPercentile x 99 ≤ npPercentile x 1 then npPercentile x 1 + 1
         else npPercentile x 99) := by
  have hbq : (bins : ℚ) ≠ 0 := Nat.cast_ne_zero.mpr (Nat.pos_iff_ne_zero.mp hb)
  simp only [computeHistBins]
  refine ⟨linspace_length _ _ _, ?_, ?_, ?_, ?_⟩
  · rw [linspace_getD _ _ _ 0 (Nat.zero_le _)]
    push_cast
    ring
  · rw [linspace_getD _ _ _ bins le_rfl]
    field_simp
  · intro i hi
    rw [linspace_getD _ _ _ (i + 1) (Nat.succ_le_of_lt hi), linspace_getD _ _ _ i (le_of_lt hi)]
    push_cast
    ring
  · split_ifs with h
    · exact lt_add_one _
    · exact lt_of_not_le h

/-- Witness for C6 at the column `[0, 100]` with the default 20 bins. -/
theorem computeHistBins_spec_witness :
    (([(0 : ℚ), 100] : List ℚ) ≠ [] ∧ (0 : ℕ) < 20)
    ∧ ((computeHistBins [0, 100] 20).length = 20 + 1
      ∧ (computeHistBins [0, 100] 20).getD 0 0 = npPercentile [0, 100] 1
      ∧ (computeHistBins [0, 100] 20).getD 20 0 =
          (if npPercentile [0, 100] 99 ≤ npPercentile [0, 100] 1
           then npPercentile [0, 100] 1 + 1 else npPercentile [0, 100] 99)
      ∧ (∀ i, i < 20 →
          (computeHistBins [0, 100] 20).getD (i + 1) 0
              - (computeHistBins [0, 100] 20).getD i 0 =
            ((if npPercentile [0, 100] 99 ≤ npPercentile [0, 100] 1
              then npPercentile [0, 100] 1 + 1 else npPercentile [0, 100] 99)
                - npPercentile [0, 100] 1) / ((20 : ℕ) : ℚ))
      ∧ npPercentile [0, 100] 1 <
          (if npPercentile [0, 100] 99 ≤ npPercentile [0, 100] 1
           then npPercentile [0, 100] 1 + 1 else npPercentile [0, 100] 99)) :=
  ⟨⟨by simp, by norm_num⟩, computeHistBins_spec [0, 100] 20 (by simp) (by norm_num)⟩

/-- Counterexample to claim C7 as stated: a JSON-typed record whose
payload does not match any accepted JSON shape is NOT retried as CSV —
with content type `application/json` and payload `5.1,3.5,1.4,0.2` the
handler emits the NaN row, although the CSV rule applied to the same
payload yields the vector. -/
theorem csv_fallback_refuted :
    preprocessHandler (some ⟨some "5.1,3.5,1.4,0.2", "application/json", ""⟩) = nanRow
    ∧ parseCsv "5.1,3.5,1.4,0.2" = some (51/10, 7/2, 7/5, 1/5)
    ∧ nanRow ≠ rowOf (51/10, 7/2, 7/5, 1/5) :=
  ⟨by with_unfolding_all rfl, by with_unfolding_all rfl, by with_unfolding_all decide⟩

/-- Claim C7 (amended): when the content type does not indicate JSON
(and the record is not base64-tagged), the normalizer applies the CSV
rule: it inspects exactly the tokens of the last non-empty line of the
payload (split on commas or whitespace) and produces a vector exactly
when at least four tokens result and the first four are numeric;
otherwise the record is unparseable.  A JSON-typed record that fails
to match an accepted shape is unparseable with no CSV fallback. -/
theorem csv_parse_amended (s ct enc : String)
    (hjson : hasSubstr "json" (pyLower ct) = false)
    (henc : pyUpper enc ≠ "BASE64") :
    (preprocessHandler (some ⟨some s, ct, enc⟩) =
      (match parseCsv s with
       | some v => rowOf v
       | none => nanRow))
    ∧ parseCsv s = tokens4 (csvTokens s)
    ∧ (∀ v : Vec4, parseCsv s = some v ↔
        ∃ t0 t1 t2 t3 rest, csvTokens s = t0 :: t1 :: t2 :: t3 :: rest
          ∧ pyFloatChars t0 = some v.1 ∧ pyFloatChars t1 = some v.2.1
          ∧ pyFloatChars t2 = some v.2.2.1 ∧ pyFloatChars t3 = some v.2.2.2) :=
  ⟨csv_routing s ct enc hjson henc, parseCsv_eq_tokens4 s, fun v => parseCsv_iff s v⟩

/-- Witness for C7 (amended) at the CSV record `5.1,3.5,1.4,0.2`. -/
theorem csv_parse_amended_witness :
    (hasSubstr "json" (pyLower "text/csv") = false ∧ pyUpper "" ≠ "BASE64")
    ∧ ((preprocessHandler (some ⟨some "5.1,3.5,1.4,0.2", "text/csv", ""⟩) =
        (match parseCsv "5.1,3.5,1.4,0.2" with
         | some v => rowOf v
         | none => nanRow))
      ∧ parseCsv "5.1,3.5,1.4,0.2" = tokens4 (csvTokens "5.1,3.5,1.4,0.2")
      ∧ (∀ v : Vec4, parseCsv "5.1,3.5,1.4,0.2" = some v ↔
          ∃ t0 t1 t2 t3 rest, csvTokens "5.1,3.5,1.4,0.2" = t0 :: t1 :: t2 :: t3 :: rest
            ∧ pyFloatChars t0 = some v.1 ∧ pyFloatChars t1 = some v.2.1
            ∧ pyFloatChars t2 = some v.2.2.1 ∧ pyFloatChars t3 = some v.2.2.2)) :=
  ⟨⟨by with_unfolding_all decide, by with_unfolding_all decide⟩,
    csv_parse_amended "5.1,3.5,1.4,0.2" "text/csv" ""
      (by with_unfolding_all decide) (by with_unfolding_all decide)⟩

/-- Claim C8: the baseline build fails (with the empty-dataset error)
exactly when the dataset is empty after `dropna` or some cleaned
feature column is empty — in particular on the empty input dataset —
and a successful build returns a complete artifact: one entry per
declared feature in declared order, the declared schema, and 21 bin
edges per feature.  An error produces no artifact value at all, so
nothing partial is ever written. -/
theorem buildBaseline_empty_and_complete (rows : List (List Cell)) :
    (rows = [] → ∃ e, buildBaseline rows = .error e)
    ∧ ((∃ e, buildBaseline rows = .error e) ↔
        (dropnaRows rows = [] ∨ cleanColumn (dropnaRows rows) 0 = []
          ∨ cleanColumn (dropnaRows rows) 1 = [] ∨ cleanColumn (dropnaRows rows) 2 = []
          ∨ cleanColumn (dropnaRows rows) 3 = []))
    ∧ (∀ b, buildBaseline rows = .ok b →
        b.features.map Prod.fst = FEATURES
        ∧ b.schema = FEATURES
        ∧ ∀ p ∈ b.features, p.2.bins.length = 21) := by
  by_cases h0 : dropnaRows rows = []
  · refine ⟨fun _ => ⟨"Training dataset is empty after dropna()",
      by simp [buildBaseline, h0]⟩, ?_, ?_⟩
    · simp [buildBaseline, h0]
    · intro b hb
      simp [buildBaseline, h0] at hb
  · have hne : rows ≠ [] := by
      intro hr
      exact h0 (by simp [dropnaRows, hr])
    refine ⟨fun hr => absurd hr hne, ?_, ?_⟩
    · by_cases h1 : cleanColumn (dropnaRows rows) 0 = []
      · simp [buildBaseline, buildFeatures, h0, h1]
      · by_cases h2 : cleanColumn (dropnaRows rows) 1 = []
        · simp [buildBaseline, buildFeatures, h0, h1, h2]
        · by_cases h3 : cleanColumn (dropnaRows rows) 2 = []
          · simp [buildBaseline, buildFeatures, h0, h1, h2, h3]
          · by_cases h4 : cleanColumn (dropnaRows rows) 3 = []
            · simp [buildBaseline, buildFeatures, h0, h1, h2, h3, h4]
            · simp [buildBaseline, buildFeatures, h0, h1, h2, h3, h4]
    · intro b hb
      by_cases h1 : cleanColumn (dropnaRows rows) 0 = [] <;>
      by_cases h2 : cleanColumn (dropnaRows rows) 1 = [] <;>
      by_cases h3 : cleanColumn (dropnaRows rows) 2 = [] <;>
      by_cases h4 : cleanColumn (dropnaRows rows) 3 = [] <;>
        simp [buildBaseline, buildFeatures, h0, h1, h2, h3, h4] at hb
      subst hb
      refine ⟨rfl, rfl, ?_⟩
      intro p hp
      simp [FEATURES] at hp
      rcases hp with h | h | h | h <;> subst h <;>
        simp [featureStats, computeHistBins_length]

/-- Witness for C8 at the empty dataset. -/
theorem buildBaseline_empty_and_complete_witness :
    ∃ e, buildBaseline [] = .error e :=
  (buildBaseline_empty_and_complete []).1 rfl

/-- Claim C9: for every input record — any content type, encoding and
payload — `preprocess_handler` returns a mapping whose key list is
exactly the four declared features in declared order; the result is
never the empty skip list, and every record is either the all-NaN row
(the unparseable case) or a fully parsed four-value row.  The model is
a total function: every exception path in the source returns the NaN
row. -/
theorem preprocess_schema_stable (rec : Option EndpointInput) :
    (preprocessHandler rec).map Prod.fst = FEATURES
    ∧ preprocessHandler rec ≠ []
    ∧ (preprocessHandler rec = nanRow ∨ ∃ v : Vec4, preprocessHandler rec = rowOf v) := by
  refine ⟨?_, ?_, handlerShape rec⟩
  · rcases handlerShape rec with h | ⟨v, h⟩ <;> rw [h] <;> rfl
  · rcases handlerShape rec with h | ⟨v, h⟩ <;> rw [h] <;> simp [nanRow, rowOf, FEATURES]

/-- Claim C10: `_validate_row`'s range check is boundary-inclusive —
a list row consisting of the exact lower bounds (or the exact upper
bounds) of all four features produces no issue, and in general a
four-value numeric row validates cleanly exactly when every value lies
within its closed range (only strictly-outside values are flagged). -/
theorem validateRow_boundary_inclusive :
    validateRow (.arr [.num 3, .num 1, .num 1, .num 0]) = []
    ∧ validateRow (.arr [.num 9, .num 5, .num 7, .num 3]) = []
    ∧ (∀ a b c d : ℚ, validateRow (.arr [.num a, .num b, .num c, .num d]) = [] ↔
        (3 ≤ a ∧ a ≤ 9) ∧ (1 ≤ b ∧ b ≤ 5) ∧ (1 ≤ c ∧ c ≤ 7) ∧ (0 ≤ d ∧ d ≤ 3)) := by
  refine ⟨by with_unfolding_all rfl, by with_unfolding_all rfl, ?_⟩
  intro a b c d
  simp [validateRow, FEATURE_RANGES, checkVal, pyFloat, List.range_succ]

end IrisMon
